import Mathlib

/-!
Verification development for the RaySession patchbay canvas layout engine
(src/gui/patchcanvas: canvasbox.py, canvaslinemov.py, canvasbezierlinemov.py,
canvasicon.py).

Shallow embedding conventions:
* Python floats are modelled as exact rationals (`ℚ`); the constants 0.62 and
  0.75 become `31/50` and `3/4`.
* Integer quantities (port positions, portgroup lengths, ids) are `ℤ` or `ℕ`.
* External collaborators (Qt widgets, font metrics `QFontMetrics.width`,
  the scene, `CanvasGetPortGroupPosition` from utils.py) are modelled as
  input data or oracle functions; all arithmetic and control flow found in
  the four source files is embedded directly.
* A Python `ZeroDivisionError` is modelled by an explicit error outcome;
  divisions whose divisor is a portgroup length minus one are additionally
  recorded in an output list, in execution order, so that statements about
  "divides by (length - 1)" can be made.
-/

/-- Port mode, mirroring PORT_MODE_NULL / PORT_MODE_INPUT / PORT_MODE_OUTPUT. -/
inductive PMode where
  | null
  | input
  | output
  deriving DecidableEq, Repr, Inhabited

/-- Port type, mirroring PORT_TYPE_NULL / PORT_TYPE_AUDIO_JACK /
PORT_TYPE_MIDI_JACK / PORT_TYPE_MIDI_ALSA / PORT_TYPE_PARAMETER. -/
inductive PType where
  | null
  | audio_jack
  | midi_jack
  | midi_alsa
  | parameter
  deriving DecidableEq, Repr, Inhabited

/-- The attachment parent of a moving line: `self.parentItem().type()` is
either CanvasPortType or CanvasPortGroupType (a drag line is always created
with a port or portgroup widget as parent). -/
inductive ParentT where
  | port
  | portgrp
  deriving DecidableEq, Repr, Inhabited

/-- State of a `CanvasLineMov` item (canvaslinemov.py).  Fields mirror the
attributes set in `__init__` / `setDestinationPortGroupPosition`.
`p_width` is `parent.getPortWidth()` (an external widget measurement),
`p_lineX`/`p_lineY` are the scene position captured at creation. -/
structure LineMovState where
  m_port_mode : PMode
  parent_type : ParentT
  m_port_pos_from : ℤ
  m_portgrp_len_from : ℤ
  m_port_pos_dest : ℤ
  m_portgrp_len_dest : ℤ
  p_lineX : ℚ
  p_lineY : ℚ
  p_width : ℚ
  deriving Repr

/-- Outcome of `CanvasLineMov.updateLinePos`: the function either returns
early without touching the line (invalid port mode), raises
`ZeroDivisionError`, or sets the line to the segment
`(x1, y1) -- (x2, y2)`. -/
inductive LineRes where
  | unchanged
  | err
  | line (x1 y1 x2 y2 : ℚ)
  deriving DecidableEq, Repr

/-- Source-endpoint Y offset of `CanvasLineMov.updateLinePos`
(`item_pos[1]`, lines 97-111 of canvaslinemov.py), together with the list of
executed divisions whose divisor is a portgroup length minus one.
`none` models the `ZeroDivisionError` raised when the divisor is zero.
`h` is `canvas.theme.port_height`. -/
def lmSourceY (h : ℚ) (s : LineMovState) : List ℤ × Option ℚ :=
  let phi : ℚ := if s.m_portgrp_len_from > 2 then 3/4 else 31/50
  match s.parent_type with
  | .port =>
    if s.m_portgrp_len_from > 1 then
      let first_old_y := h * phi
      let last_old_y := h * ((s.m_portgrp_len_from : ℚ) - phi)
      let d : ℤ := s.m_portgrp_len_from - 1
      if d = 0 then ([d], none)
      else
        let delta := (last_old_y - first_old_y) / (d : ℚ)
        ([d], some (first_old_y + (s.m_port_pos_from : ℚ) * delta
                      - h * (s.m_port_pos_from : ℚ)))
    else
      ([], some (h / 2))
  | .portgrp =>
    let first_old_y := h * phi
    let last_old_y := h * ((s.m_portgrp_len_from : ℚ) - phi)
    let d : ℤ := s.m_portgrp_len_from - 1
    if d = 0 then ([d], none)
    else
      let delta := (last_old_y - first_old_y) / (d : ℚ)
      ([d], some (first_old_y + (s.m_port_pos_from : ℚ) * delta))

/-- Destination mouse Y offset of `CanvasLineMov.updateLinePos`
(`mouse_y_offset`, lines 113-120 of canvaslinemov.py), with the recorded
(length - 1) divisions. -/
def lmDestOffset (h : ℚ) (s : LineMovState) : List ℤ × Option ℚ :=
  let phito : ℚ := if s.m_portgrp_len_dest > 2 then 3/4 else 31/50
  if s.m_portgrp_len_dest = 1 then
    ([], some 0)
  else
    let first_new_y := h * phito
    let last_new_y := h * ((s.m_portgrp_len_dest : ℚ) - phito)
    let d : ℤ := s.m_portgrp_len_dest - 1
    if d = 0 then ([d], none)
    else
      let delta := (last_new_y - first_new_y) / (d : ℚ)
      let new_y1 := first_new_y + (s.m_port_pos_dest : ℚ) * delta
      ([d], some (new_y1 - (last_new_y - first_new_y) / 2 - h * phito))

/-- Embedding of `CanvasLineMov.updateLinePos` (canvaslinemov.py lines
84-123).  `h` is `canvas.theme.port_height`; `sx`, `sy` are the scene
coordinates of the cursor (`scenePos`).  Returns the resulting line and the
list of executed divisions by a (portgroup length - 1). -/
def updateLinePosLM (h : ℚ) (s : LineMovState) (sx sy : ℚ) :
    LineRes × List ℤ :=
  match s.m_port_mode with
  | .null => (.unchanged, [])
  | m =>
    let x0 : ℚ := if m = .input then 0 else s.p_width + 12
    match lmSourceY h s with
    | (ds, none) => (.err, ds)
    | (ds, some y0) =>
      match lmDestOffset h s with
      | (ds2, none) => (.err, ds ++ ds2)
      | (ds2, some off) =>
        (.line x0 y0 (sx - s.p_lineX) (sy - s.p_lineY + off), ds ++ ds2)

/-- Y coordinate of the source endpoint of a `LineRes`, when a line was
produced. -/
def LineRes.srcY : LineRes → Option ℚ
  | .line _ y1 _ _ => some y1
  | _ => none

/-- State of a `CanvasBezierLineMov` item (canvasbezierlinemov.py).  Field
names keep the source spelling (including the `lenght` typo).  The
`m_ready_to_disc` flag only selects the pen style and is omitted, as is all
pen/paint logic. -/
structure BezierMovState where
  m_port_mode : PMode
  parent_type : ParentT
  m_port_posinportgrp : ℤ
  m_portgrp_lenght : ℤ
  m_port_posinportgrp_to : ℤ
  m_portgrp_lenght_to : ℤ
  p_itemX : ℚ
  p_itemY : ℚ
  p_width : ℚ
  deriving Repr

/-- A cubic Bezier path as produced by
`QPainterPath(QPointF(old_x, old_y)); path.cubicTo(c1x, c1y, c2x, c2y, end_x, end_y)`. -/
structure BezPath where
  start_x : ℚ
  start_y : ℚ
  c1x : ℚ
  c1y : ℚ
  c2x : ℚ
  c2y : ℚ
  end_x : ℚ
  end_y : ℚ
  deriving DecidableEq, Repr

/-- Outcome of `CanvasBezierLineMov.updateLinePos`. -/
inductive BezRes where
  | unchanged
  | err
  | path (p : BezPath)
  deriving DecidableEq, Repr

/-- Source-endpoint Y offset `old_y` of `CanvasBezierLineMov.updateLinePos`
(lines 114-122 and 134-138 of canvasbezierlinemov.py), with recorded
(length - 1) divisions. -/
def bzSourceY (h : ℚ) (s : BezierMovState) : List ℤ × Option ℚ :=
  let phi : ℚ := if s.m_portgrp_lenght > 2 then 3/4 else 31/50
  match s.parent_type with
  | .port =>
    if s.m_portgrp_lenght > 1 then
      let first_old_y := h * phi
      let last_old_y := h * ((s.m_portgrp_lenght : ℚ) - phi)
      let d : ℤ := s.m_portgrp_lenght - 1
      if d = 0 then ([d], none)
      else
        let delta := (last_old_y - first_old_y) / (d : ℚ)
        ([d], some (first_old_y + (s.m_port_posinportgrp : ℚ) * delta
                      - h * (s.m_port_posinportgrp : ℚ)))
    else
      ([], some (h / 2))
  | .portgrp =>
    let first_old_y := h * phi
    let last_old_y := h * ((s.m_portgrp_lenght : ℚ) - phi)
    let d : ℤ := s.m_portgrp_lenght - 1
    if d = 0 then ([d], none)
    else
      let delta := (last_old_y - first_old_y) / (d : ℚ)
      ([d], some (first_old_y + (s.m_port_posinportgrp : ℚ) * delta))

/-- Destination Y offset `new_y` of `CanvasBezierLineMov.updateLinePos`
(lines 124-132 for a port parent, lines 140-152 for a portgroup parent),
given the already computed `old_y`, with recorded (length - 1) divisions. -/
def bzDestY (h : ℚ) (s : BezierMovState) (old_y : ℚ) : List ℤ × Option ℚ :=
  let phi : ℚ := if s.m_portgrp_lenght > 2 then 3/4 else 31/50
  let phito : ℚ := if s.m_portgrp_lenght_to > 2 then 3/4 else 31/50
  match s.parent_type with
  | .port =>
    if s.m_portgrp_lenght_to = 1 then
      ([], some 0)
    else
      let first_new_y := h * phito
      let last_new_y := h * ((s.m_portgrp_lenght_to : ℚ) - phito)
      let d : ℤ := s.m_portgrp_lenght_to - 1
      if d = 0 then ([d], none)
      else
        let delta := (last_new_y - first_new_y) / (d : ℚ)
        let new_y1 := first_new_y + (s.m_port_posinportgrp_to : ℚ) * delta
        ([d], some (new_y1 - (last_new_y - first_new_y) / 2 - h * phito))
  | .portgrp =>
    if s.m_portgrp_lenght_to = 1 then
      ([], some 0)
    else if s.m_port_posinportgrp_to = s.m_port_posinportgrp
        ∧ s.m_portgrp_lenght = s.m_portgrp_lenght_to then
      let first_old_y := h * phi
      let last_old_y := h * ((s.m_portgrp_lenght : ℚ) - phi)
      ([], some (old_y - (last_old_y - first_old_y) / 2 - h * phi))
    else
      let first_new_y := h * phito
      let last_new_y := h * ((s.m_portgrp_lenght_to : ℚ) - phito)
      let d : ℤ := s.m_portgrp_lenght_to - 1
      if d = 0 then ([d], none)
      else
        let delta := (last_new_y - first_new_y) / (d : ℚ)
        let new_y1 := first_new_y + (s.m_port_posinportgrp_to : ℚ) * delta
        ([d], some (new_y1 - (last_new_y - first_new_y) / 2 - h * phito))

/-- Embedding of `CanvasBezierLineMov.updateLinePos` (canvasbezierlinemov.py
lines 83-183, pen handling omitted).  Note that in the source the port-mode
check (lines 157-179) happens after the Y-offset computations, so an invalid
mode still executes the divisions before returning without a path. -/
def updateLinePosBZ (h : ℚ) (s : BezierMovState) (sx sy : ℚ) :
    BezRes × List ℤ :=
  match bzSourceY h s with
  | (ds, none) => (.err, ds)
  | (ds, some old_y) =>
    match bzDestY h s old_y with
    | (ds2, none) => (.err, ds ++ ds2)
    | (ds2, some new_y) =>
      let final_x := sx - s.p_itemX
      let final_y := sy - s.p_itemY + new_y
      match s.m_port_mode with
      | .output =>
        let old_x := s.p_width + 12
        let mid_x := |final_x - old_x| / 2
        let nx1 := old_x + mid_x
        let nx2 := final_x - mid_x
        let diffxy := |final_y - old_y| - |final_x - old_x|
        let nx1 := if diffxy > 0 then nx1 + |diffxy| else nx1
        let nx2 := if diffxy > 0 then nx2 - |diffxy| else nx2
        (.path ⟨old_x, old_y, nx1, old_y, nx2, final_y, final_x, final_y⟩,
         ds ++ ds2)
      | .input =>
        let old_x : ℚ := 0
        let mid_x := |final_x - old_x| / 2
        let nx1 := old_x - mid_x
        let nx2 := final_x + mid_x
        let diffxy := |final_y - old_y| - |final_x - old_x|
        let nx1 := if diffxy > 0 then nx1 - |diffxy| else nx1
        let nx2 := if diffxy > 0 then nx2 + |diffxy| else nx2
        (.path ⟨old_x, old_y, nx1, old_y, nx2, final_y, final_x, final_y⟩,
         ds ++ ds2)
      | .null => (.unchanged, ds ++ ds2)

/-- Start-point Y of a produced Bezier path. -/
def BezRes.srcY : BezRes → Option ℚ
  | .path p => some p.start_y
  | _ => none

/-- Side effects of CanvasBox wrap handling that reach collaborators:
`hide_ports_for_wrap(hide)` (one call switches visibility of every
port/portgroup widget of the box), the scene animation registration, the
scene box-deplacement calls, and `updatePositions()`. -/
inductive BoxAction where
  | hide_ports (hide : Bool)
  | add_to_anim (yesno : Bool)
  | scene_deplace
  | update_pos
  deriving DecidableEq, Repr

/-- Wrap-related state of a CanvasBox: the `_wrapped`, `_wrapping`,
`_unwrapping` flags and `_wrapping_ratio` (set from a float power, hence
modelled in the reals). -/
structure WrapState where
  wrapped : Bool
  wrapping : Bool
  unwrapping : Bool
  wrap_amount : ℝ
  deriving Inhabited

/-- Embedding of `CanvasBox.animate_wrapping(ratio)` (canvasbox.py lines
456-472).  The eased value written to `_wrapping_ratio` is
`ratio ** 0.25` while wrapping and `ratio ** 4` otherwise; at
`ratio == 1.00` the animation terminates: while unwrapping the port
visibility is restored by a single `hide_ports_for_wrap(False)` call, and
both direction flags are cleared.  The trailing `updatePositions()` call is
recorded as an action. -/
noncomputable def animate_wrapping (s : WrapState) (ratio : ℝ) :
    WrapState × List BoxAction :=
  let wr : ℝ := if s.wrapping then ratio ^ ((1 : ℝ)/4) else ratio ^ (4 : ℕ)
  let s1 := { s with wrap_amount := wr }
  if ratio = 1 then
    let acts : List BoxAction :=
      if s.unwrapping then [.hide_ports false] else []
    ({ s1 with wrapping := false, unwrapping := false },
     acts ++ [.update_pos])
  else
    (s1, [.update_pos])

/-- Embedding of `CanvasBox.set_wrapped(yesno, animate)` (canvasbox.py lines
496-531).  Returns the new wrap state and the emitted collaborator calls.
Hiding of all port/portgroup widgets happens here, at the start of a wrap,
via `hide_ports_for_wrap(True)`; the geometry of the scene bounding
rectangles is external and summarised by the `scene_deplace` action. -/
def set_wrapped (s : WrapState) (yesno : Bool) (animate : Bool) :
    WrapState × List BoxAction :=
  if yesno = s.wrapped then (s, [])
  else
    let s1 := { s with wrapped := yesno }
    let acts : List BoxAction := if yesno then [.hide_ports true] else []
    if !animate then (s1, acts)
    else
      ({ s1 with wrapping := yesno, unwrapping := !yesno },
       acts ++ [.add_to_anim yesno, .scene_deplace])

/-- A `cb_line_t` entry of `m_connection_lines`: an (opaque) line widget
handle and the connection id. -/
structure CbLine where
  line : ℕ
  connection_id : ℤ
  deriving DecidableEq, Repr

/-- The id-containment state of a CanvasBox: `m_port_list_ids` and
`m_connection_lines`. -/
structure BoxLists where
  m_port_list_ids : List ℤ
  m_connection_lines : List CbLine
  deriving DecidableEq, Repr

/-- Follow-up effects of a successful `removePortFromGroup`. -/
inductive RemoveAction where
  | update_pos
  | auto_hide
  deriving DecidableEq, Repr

/-- Embedding of `CanvasBox.removePortFromGroup(port_id)` (canvasbox.py
lines 394-409).  The returned Bool is true when the id was not found and
`qCritical` was logged (the operation then returns without mutating
anything).  `visible` stands for the external `self.isVisible()`. -/
def removePortFromGroup (visible : Bool) (s : BoxLists) (port_id : ℤ) :
    BoxLists × Bool × List RemoveAction :=
  if port_id ∈ s.m_port_list_ids then
    let s1 := { s with m_port_list_ids := s.m_port_list_ids.erase port_id }
    if s1.m_port_list_ids.length > 0 then (s1, false, [.update_pos])
    else if visible then (s1, false, [.auto_hide])
    else (s1, false, [])
  else (s, true, [])

/-- The search-and-remove loop of `CanvasBox.removeLineFromGroup`:
removes the first entry with the given connection id, or returns `none`. -/
def removeFirstConn : List CbLine → ℤ → Option (List CbLine)
  | [], _ => none
  | c :: rest, cid =>
    if c.connection_id = cid then some rest
    else (removeFirstConn rest cid).map (c :: ·)

/-- Embedding of `CanvasBox.removeLineFromGroup(connection_id)`
(canvasbox.py lines 424-429).  The Bool is true when no matching line was
found and `qCritical` was logged. -/
def removeLineFromGroup (s : BoxLists) (connection_id : ℤ) :
    BoxLists × Bool :=
  match removeFirstConn s.m_connection_lines connection_id with
  | some l => ({ s with m_connection_lines := l }, false)
  | none => (s, true)

/-- Indexes at which a given character occurs (the scans of
`split_in_two` for the ' ', '-' and '_' separator classes). -/
def charScan (target : Char) : ℕ → List Char → List ℕ
  | _, [] => []
  | i, c :: r =>
    if c = target then i :: charScan target (i + 1) r
    else charScan target (i + 1) r

/-- The 'capital' separator scan of `split_in_two` (canvasbox.py lines
544-548): an index is recorded when `c.upper() == c` (modelled for ASCII as
"not a lowercase letter") unless the character is a digit directly preceded
by another digit; `last_was_digit` is only updated on such characters. -/
def capitalScan : ℕ → Bool → List Char → List ℕ
  | _, _, [] => []
  | i, lwd, c :: r =>
    if !c.isLower then
      if !c.isDigit || !lwd then i :: capitalScan (i + 1) c.isDigit r
      else capitalScan (i + 1) c.isDigit r
    else capitalScan (i + 1) lwd r

/-- The separator classes tried by `split_in_two`, in preference order. -/
inductive SepKind where
  | space
  | hyphen
  | underscore
  | capital
  deriving DecidableEq, Repr

/-- Separator indexes for one class. -/
def sepIndexesFor (s : List Char) : SepKind → List ℕ
  | .space => charScan ' ' 0 s
  | .hyphen => charScan '-' 0 s
  | .underscore => charScan '_' 0 s
  | .capital => capitalScan 0 false s

/-- First separator class yielding at least one index (the outer
`for sep in (' ', '-', '_', 'capital')` loop with its break). -/
def chooseSep (s : List Char) : Option (SepKind × List ℕ) :=
  if sepIndexesFor s .space ≠ [] then some (.space, sepIndexesFor s .space)
  else if sepIndexesFor s .hyphen ≠ [] then some (.hyphen, sepIndexesFor s .hyphen)
  else if sepIndexesFor s .underscore ≠ [] then some (.underscore, sepIndexesFor s .underscore)
  else if sepIndexesFor s .capital ≠ [] then some (.capital, sepIndexesFor s .capital)
  else none

/-- Python slice `s[a:b]` on a character list (empty when `a ≥ b`). -/
def pySlice (s : List Char) (a b : ℕ) : List Char := (s.drop a).take (b - a)

/-- Shared part-building loop of `split_in_two`: successive slices between
split indexes, skipping one character per split point when the separator
class is ' '. -/
def buildParts (isSpace : Bool) (s : List Char) : ℕ → List ℕ → List (List Char)
  | last, [] => [s.drop last]
  | last, i :: r =>
    pySlice s last i :: buildParts isSpace s (if isSpace then i + 1 else i) r

/-- Inner candidate scan of the balanced-split path of `split_in_two`
(canvasbox.py lines 585-594): skips indexes at or before the previous
choice, tracks the best distance to `target`, and breaks as soon as the
distance stops improving. -/
def bestSep (target lastb : ℕ) : List ℕ → ℕ → ℤ → ℕ
  | [], best, _ => best
  | x :: r, best, bestd =>
    if x ≤ lastb then bestSep target lastb r best bestd
    else
      let dif : ℤ := |(target : ℤ) - (x : ℤ)|
      if dif < bestd then bestSep target lastb r x dif
      else best

/-- Outer loop of the balanced-split path (`for i in range(n_lines, 1, -1)`,
canvasbox.py lines 580-601).  `rev_best` holds `best_indexes` in reverse
(most recent first, initially `[0]`); `rest` is `string_rest`. -/
def path3Loop (isSpace : Bool) (s : List Char) (idxs : List ℕ) :
    ℕ → List ℕ → List Char → List ℕ
  | 0, rev_best, _ => rev_best
  | 1, rev_best, _ => rev_best
  | i + 2, rev_best, rest =>
    let lastb := rev_best.headD 0
    let target := lastb + rest.length / (i + 2)
    let b := bestSep target lastb idxs 0 (s.length : ℤ)
    let rest' := if isSpace then s.drop (b + 1) else s.drop b
    path3Loop isSpace s idxs (i + 1) (b :: rev_best) rest'

/-- Embedding of the static method `CanvasBox.split_in_two(string, n_lines)`
(canvasbox.py lines 536-614), on character lists. -/
def split_in_two (s : List Char) (n_lines : ℕ) : List (List Char) :=
  match chooseSep s with
  | none => s :: List.replicate (n_lines - 1) []
  | some (k, idxs) =>
    let isSpace := k = SepKind.space
    if idxs.length + 1 ≤ n_lines then
      buildParts isSpace s 0 idxs
        ++ List.replicate (n_lines - idxs.length - 1) []
    else
      let best := ((path3Loop isSpace s idxs n_lines [0] s).reverse).drop 1
      buildParts isSpace s 0 best

/-- A title line as produced by `splitTitle`: its text, whether it is the
"little" (non-bold) client prefix, and whether its font was shrunk by
`reduce_pixel(2)` (applied when 4 or more lines result).  Its pixel width is
an external `QFontMetrics` measurement of these three data. -/
structure TLine where
  text : List Char
  little : Bool
  reduced : Bool
  deriving DecidableEq, Repr

/-- Python `string.partition('/')`: text before and after the first slash,
or `none` when there is no slash. -/
def partSlash : List Char → Option (List Char × List Char)
  | [] => none
  | c :: r =>
    if c = '/' then some ([], r)
    else (partSlash r).map (fun p => (c :: p.1, p.2))

/-- The non-client branch of `CanvasBox.splitTitle` (canvasbox.py lines
355-365): split the whole group name in `n_lines` parts, drop empty parts,
and shrink the font when 4 or more lines remain. -/
def splitTitlePlain (group_name : List Char) (n_lines : ℕ) : List TLine :=
  let base : List TLine :=
    if n_lines ≥ 2 then
      ((split_in_two group_name n_lines).filter (· ≠ [])).map
        (fun t => ⟨t, false, false⟩)
    else [⟨group_name, false, false⟩]
  if base.length ≥ 4 then base.map (fun l => { l with reduced := true })
  else base

/-- Embedding of `CanvasBox.splitTitle(n_lines)` (canvasbox.py lines
343-367).  `icon_is_client` is `m_icon_type == ICON_CLIENT`.  When the group
name contains a slash and the box is a client box, the part before the slash
becomes a "little" first line and only the subtitle is split further. -/
def splitTitle (icon_is_client : Bool) (group_name : List Char)
    (n_lines : ℕ) : List TLine :=
  match partSlash group_name with
  | some (title, subtitle) =>
    if icon_is_client ∧ subtitle ≠ [] then
      ⟨title, true, false⟩ ::
        (if n_lines ≥ 3 then
          ((split_in_two subtitle 2).filter (· ≠ [])).map
            (fun t => ⟨t, false, false⟩)
        else [⟨subtitle, false, false⟩])
    else splitTitlePlain group_name n_lines
  | none => splitTitlePlain group_name n_lines

/-- Theme constants consumed by `CanvasBox.updatePositions` (injected
read-only configuration). -/
structure Theme where
  port_height : ℚ
  port_spacing : ℚ
  port_spacingT : ℚ
  box_header_height : ℚ
  box_header_spacing : ℚ
  port_in_portgrp_width : ℚ
  deriving Repr

/-- A port of the box as seen by `updatePositions`.  `pg_pos` and `pg_len`
are the values of `CanvasGetPortGroupPosition` (utils.py, external to the
embedded files); `text_width` is `port.widget.get_text_width()` after
`set_print_name` and `pg_text_width` is the portgroup widget's text width
after the possible `reduce_print_name` call — both are external
`QFontMetrics`-based widget measurements, supplied as data. -/
structure LPort where
  port_id : ℤ
  port_mode : PMode
  port_type : PType
  is_alternate : Bool
  portgrp_id : ℕ
  pg_pos : ℤ
  pg_len : ℤ
  text_width : ℚ
  pg_text_width : ℚ
  deriving Repr

/-- Display width of one port (the `size` variable of the width pass,
canvasbox.py lines 707-741): grouped ports combine the portgroup label width
with a floored per-port width, solo ports use `max(text_width, 20)`.
A nonzero `portgrp_id` means the port belongs to a portgroup (Python
truthiness of the id). -/
def portSize (th : Theme) (p : LPort) : ℚ :=
  if p.portgrp_id ≠ 0 then
    p.pg_text_width + max (p.text_width + 6) th.port_in_portgrp_width
  else max p.text_width 20

/-- Running state of the width / Y-positioning pass of `updatePositions`:
the two Y cursors, the last seen (type, alternate) per side, and the two
maximal width accumulators. -/
structure YState where
  last_in_pos : ℚ
  last_out_pos : ℚ
  last_in_type : PType
  last_out_type : PType
  last_in_alter : Bool
  last_out_alter : Bool
  max_in_width : ℚ
  max_out_width : ℚ
  deriving Repr, Inhabited

/-- Processing of a single port inside the Y-positioning loop (canvasbox.py
lines 703-817): update the side's max width, add the inter-type gap when the
(type, alternate) bucket changes, and advance the side's Y cursor by one
port height, plus the port spacing after the last port of a portgroup.
The widget `setY` calls (pure outputs) do not feed back into this state. -/
def processPort (th : Theme) (s : YState) (p : LPort) : YState :=
  let port_spacing := th.port_height + th.port_spacing
  match p.port_mode with
  | .input =>
    let s := { s with max_in_width := max s.max_in_width (portSize th p) }
    let s :=
      if p.port_type ≠ s.last_in_type ∨ p.is_alternate ≠ s.last_in_alter then
        { s with
          last_in_pos :=
            if s.last_in_type ≠ PType.null then s.last_in_pos + th.port_spacingT
            else s.last_in_pos,
          last_in_type := p.port_type,
          last_in_alter := p.is_alternate }
      else s
    let last_of_portgrp := p.pg_pos + 1 = p.pg_len
    { s with last_in_pos := s.last_in_pos
        + (if last_of_portgrp then port_spacing else th.port_height) }
  | .output =>
    let s := { s with max_out_width := max s.max_out_width (portSize th p) }
    let s :=
      if p.port_type ≠ s.last_out_type ∨ p.is_alternate ≠ s.last_out_alter then
        { s with
          last_out_pos :=
            if s.last_out_type ≠ PType.null then s.last_out_pos + th.port_spacingT
            else s.last_out_pos,
          last_out_type := p.port_type,
          last_out_alter := p.is_alternate }
      else s
    let last_of_portgrp := p.pg_pos + 1 = p.pg_len
    { s with last_out_pos := s.last_out_pos
        + (if last_of_portgrp then port_spacing else th.port_height) }
  | .null => s

/-- The (type, alternate) buckets in the fixed enumeration order of
`updatePositions` (`port_types` × `(False, True)`). -/
def allBuckets : List (PType × Bool) :=
  [(.audio_jack, false), (.audio_jack, true),
   (.midi_jack, false), (.midi_jack, true),
   (.midi_alsa, false), (.midi_alsa, true),
   (.parameter, false), (.parameter, true)]

/-- Ports of one (type, alternate) bucket, in port-list order. -/
def bucketPorts (ports : List LPort) (t : PType) (a : Bool) : List LPort :=
  ports.filter (fun p => p.port_type = t ∧ p.is_alternate = a)

/-- Input/output tallies per bucket (`port_types_aligner`, canvasbox.py
lines 661-675). -/
def portTypesAligner (ports : List LPort) : List (ℕ × ℕ) :=
  allBuckets.map (fun b =>
    ((bucketPorts ports b.1 b.2).countP (fun p => p.port_mode = PMode.input),
     (bucketPorts ports b.1 b.2).countP (fun p => p.port_mode = PMode.output)))

/-- The winner fold of the alignment decision (canvasbox.py lines 677-688):
alignment is disabled as soon as a tally contradicts the running winner;
otherwise the winner moves toward the strictly larger side. -/
def alignFold : PMode → List (ℕ × ℕ) → Bool
  | _, [] => true
  | w, (n_ins, n_outs) :: rest =>
    if (w = PMode.input ∧ n_outs > n_ins)
        ∨ (w = PMode.output ∧ n_ins > n_outs) then false
    else
      alignFold
        (if n_ins > n_outs then .input
         else if n_outs > n_ins then .output else w) rest

/-- The type-alignment decision of `updatePositions`. -/
def alignPortTypes (ports : List LPort) : Bool :=
  alignFold .null (portTypesAligner ports)

/-- One (type, alternate) bucket of the Y-positioning loop: process its
ports in order, then, when alignment is enabled, equalise both cursors to
their maximum and copy the taller side's last (type, alternate) to the other
side (canvasbox.py lines 691-830). -/
def processBucket (th : Theme) (align : Bool) (ports : List LPort)
    (s : YState) (b : PType × Bool) : YState :=
  let s1 := (bucketPorts ports b.1 b.2).foldl (processPort th) s
  if align then
    let m := max s1.last_in_pos s1.last_out_pos
    if s1.last_in_pos > s1.last_out_pos then
      { s1 with last_out_type := s1.last_in_type,
                last_out_alter := s1.last_in_alter,
                last_in_pos := m, last_out_pos := m }
    else
      { s1 with last_in_type := s1.last_out_type,
                last_in_alter := s1.last_out_alter,
                last_in_pos := m, last_out_pos := m }
  else s1

/-- Initial cursor state of the Y-positioning pass (canvasbox.py lines
645-651): both cursors start at header height plus header spacing. -/
def yInit (th : Theme) : YState :=
  { last_in_pos := th.box_header_height + th.box_header_spacing,
    last_out_pos := th.box_header_height + th.box_header_spacing,
    last_in_type := .null, last_out_type := .null,
    last_in_alter := false, last_out_alter := false,
    max_in_width := 0, max_out_width := 0 }

/-- State of the Y-positioning pass after the first `k` buckets (of the 8 in
`allBuckets`) have been processed. -/
def yStateAfter (th : Theme) (ports : List LPort) : ℕ → YState
  | 0 => yInit th
  | k + 1 =>
    processBucket th (alignPortTypes ports) ports
      (yStateAfter th ports k) (allBuckets.getD k (.audio_jack, false))

/-- Inputs of the parts of `updatePositions` embedded here.  `measure` is
the external `QFontMetrics(font).width` oracle, applied to a title line's
text, its "little" flag (non-bold font) and its "reduced" flag (pixel size
shrunk by 2). -/
structure UPInput where
  th : Theme
  ports : List LPort
  group_name : List Char
  icon_is_client : Bool
  has_top_icon : Bool
  inline_display : Bool
  measure : List Char → Bool → Bool → ℚ

/-- The ports-area width requirement of `updatePositions` (canvasbox.py
lines 832-836): a base of 30 (100 when an inline display is active) plus
both maximal port-column widths. -/
def portsWidth (inp : UPInput) : ℚ :=
  (if inp.inline_display then 100 else 30)
    + (yStateAfter inp.th inp.ports 8).max_in_width
    + (yStateAfter inp.th inp.ports 8).max_out_width

/-- Largest measured width among the lines of the `i`-line title candidate
(`max_title_size`, canvasbox.py lines 846-850). -/
def maxTitleSize (inp : UPInput) (i : ℕ) : ℚ :=
  ((splitTitle inp.icon_is_client inp.group_name i).map
    (fun l => inp.measure l.text l.little l.reduced)).foldl max 0

/-- Required header width of the `i`-line title candidate (canvasbox.py
lines 853-861): title width plus icon allowance, floored at 50 (200 when an
inline display is active). -/
def headerWidthFor (inp : UPInput) (i : ℕ) : ℚ :=
  max (if inp.inline_display then 200 else 50)
    (maxTitleSize inp i + (if inp.has_top_icon then 37 else 16))

/-- The title-candidate loop of `updatePositions` (`for i in range(1, 5)`,
canvasbox.py lines 845-869) over the remaining candidate line counts:
each candidate's template is stored at its index, and the loop breaks as
soon as a candidate's header width is strictly below the current box width
estimate `W`.  Returns the template array and the last evaluated candidate. -/
def titleLoopGo (inp : UPInput) (W : ℚ) :
    List ℕ → List (ℚ × ℚ) → ℕ → List (ℚ × ℚ) × ℕ
  | [], tpls, last => (tpls, last)
  | i :: rest, tpls, _ =>
    let tpls' := tpls.set i (maxTitleSize inp i, headerWidthFor inp i)
    if headerWidthFor inp i < W then (tpls', i)
    else titleLoopGo inp W rest tpls' i

/-- The `all_title_templates` array (entries `(title_width, header_width)`,
index 0 unused) and the candidate at which the loop stopped. -/
def titleTemplates (inp : UPInput) (W : ℚ) : List (ℚ × ℚ) × ℕ :=
  titleLoopGo inp W [1, 2, 3, 4] (List.replicate 5 (0, 0)) 0

/-- The title line-count choice and the extra height `more_height`
(canvasbox.py lines 871-902), from the template array, the box width
estimate `W` and the taller Y cursor `maxpos`. -/
def linesChoice (tpls : List (ℚ × ℚ)) (W maxpos : ℚ) : ℕ × ℚ :=
  let hw := fun i => (tpls.getD i (0, 0)).2
  if hw 1 ≤ W then (1, 0)
  else if hw 2 ≤ W then (2, 0)
  else
    let area_2 := hw 2 * maxpos
    let area_3 := max W (hw 3) * (maxpos + 14)
    if area_2 ≤ area_3 then (2, 0)
    else if hw 3 ≤ W then (3, 14)
    else
      let area_4 := max W (hw 4) * (maxpos + 14)
      if area_3 - area_4 ≥ 5000 then (4, 14) else (3, 14)

/-- Width- and title-related results of one `updatePositions` run. -/
structure LayoutOut where
  align : Bool
  max_in_width : ℚ
  max_out_width : ℚ
  ports_width : ℚ
  templates : List (ℚ × ℚ)
  stop_at : ℕ
  lines_count : ℕ
  more_height : ℚ
  final_width : ℚ

/-- Assembly of the embedded parts of `CanvasBox.updatePositions`
(canvasbox.py lines 616-911): the alignment decision, the width /
Y-positioning pass over all buckets, the ports-area width, the
title-candidate loop, the line-count choice, and the final box width
`max(ports width, chosen header width)` (line 910). -/
def updatePositionsBox (inp : UPInput) : LayoutOut :=
  let ys := yStateAfter inp.th inp.ports 8
  let W := portsWidth inp
  let tk := titleTemplates inp W
  let maxpos := max ys.last_in_pos ys.last_out_pos
  let cm := linesChoice tk.1 W maxpos
  { align := alignPortTypes inp.ports,
    max_in_width := ys.max_in_width,
    max_out_width := ys.max_out_width,
    ports_width := W,
    templates := tk.1,
    stop_at := tk.2,
    lines_count := cm.1,
    more_height := cm.2,
    final_width := max W (tk.1.getD cm.1 (0, 0)).2 }

/-- Horizontal span between the endpoints of a Bezier drag path. -/
def bezSpan (p : BezPath) : ℚ := |p.end_x - p.start_x|

/-- Outward correction applied to both control-point X values of a Bezier
drag path: the excess of the vertical span over the horizontal span, when
positive. -/
def bezPush (p : BezPath) : ℚ :=
  let d := |p.end_y - p.start_y| - |p.end_x - p.start_x|
  if d > 0 then d else 0

/-- Concrete theme used for evaluating the layout embedding:
port_height 16, port_spacing 2, port_spacingT 2, header height 24,
header spacing 1, port_in_portgrp_width 21. -/
def exTheme : Theme := ⟨16, 2, 2, 24, 1, 21⟩

/-- A solo audio input port with measured text width 20. -/
def exPortIn : LPort := ⟨1, .input, .audio_jack, false, 0, 0, 1, 20, 0⟩

/-- A solo audio output port with measured text width 20. -/
def exPortOut : LPort := ⟨2, .output, .audio_jack, false, 0, 0, 1, 20, 0⟩

/-- The label string "---abcdefgh" (three hyphens followed by letters). -/
def exHyphenName : List Char :=
  ['-', '-', '-', 'a', 'b', 'c', 'd', 'e', 'f', 'g', 'h']

/-- Auxiliary: the search loop of `removeLineFromGroup` finds nothing when
no entry carries the requested connection id. -/
theorem removeFirstConn_eq_none (l : List CbLine) (cid : ℤ)
    (h : ∀ c ∈ l, c.connection_id ≠ cid) :
    removeFirstConn l cid = none := by
  induction l with
  | nil => rfl
  | cons c rest ih =>
    have hc : c.connection_id ≠ cid := h c (List.mem_cons_self c rest)
    have hrest : ∀ x ∈ rest, x.connection_id ≠ cid :=
      fun x hx => h x (List.mem_cons_of_mem c hx)
    simp [removeFirstConn, hc, ih hrest]

/-- Claim C9: calling `removePortFromGroup` with a port id absent from
`m_port_list_ids`, or `removeLineFromGroup` with a connection id absent from
`m_connection_lines`, only logs (`qCritical`) and aborts: the returned state
is the input state unchanged and no follow-up action is emitted. -/
theorem claim_C9 :
    (∀ (visible : Bool) (s : BoxLists) (port_id : ℤ),
        port_id ∉ s.m_port_list_ids →
        removePortFromGroup visible s port_id = (s, true, []))
    ∧ (∀ (s : BoxLists) (connection_id : ℤ),
        (∀ c ∈ s.m_connection_lines, c.connection_id ≠ connection_id) →
        removeLineFromGroup s connection_id = (s, true)) := by
  constructor
  · intro visible s port_id hnot
    simp [removePortFromGroup, hnot]
  · intro s connection_id hnone
    simp [removeLineFromGroup,
      removeFirstConn_eq_none s.m_connection_lines connection_id hnone]

/-- Witness for claim C9 at a concrete box state: port id 7 is not among
[1, 2] and connection id 9 is not carried by the single line entry. -/
theorem claim_C9_witness :
    removePortFromGroup true ⟨[1, 2], [⟨0, 5⟩]⟩ 7 = (⟨[1, 2], [⟨0, 5⟩]⟩, true, [])
    ∧ removeLineFromGroup ⟨[1, 2], [⟨0, 5⟩]⟩ 9 = (⟨[1, 2], [⟨0, 5⟩]⟩, true) :=
  ⟨claim_C9.1 true ⟨[1, 2], [⟨0, 5⟩]⟩ 7 (by decide),
   claim_C9.2 ⟨[1, 2], [⟨0, 5⟩]⟩ 9 (by decide)⟩

/-- Claim C10: `set_wrapped(yesno, animate)` with `yesno` equal to the
current wrapped flag returns immediately: the state is unchanged and no
collaborator call (port hiding, animation registration, scene deplacement)
is made, so repeating `set_wrapped` with the same argument is idempotent. -/
theorem claim_C10 (s : WrapState) (yesno animate : Bool)
    (h : yesno = s.wrapped) :
    set_wrapped s yesno animate = (s, []) := by
  unfold set_wrapped
  rw [if_pos h]

/-- Witness for claim C10: wrapping an already-wrapped box is a no-op. -/
theorem claim_C10_witness :
    set_wrapped ⟨true, false, false, 0⟩ true true
      = (⟨true, false, false, 0⟩, []) :=
  claim_C10 ⟨true, false, false, 0⟩ true true rfl

/-- Claim C6 (code witness): `split_in_two` on the string "---abcdefgh"
with 3 requested lines returns ("--", "", "---abcdefgh").  It does return
exactly 3 strings, but the parts duplicate the leading hyphens: since the
separator class is '-' (whose characters stay inside the parts), the parts
should concatenate to the original string, yet they concatenate to
"-----abcdefgh".  The balanced-split loop picked separator index 2 for the
first cut, and then, with no separator index remaining beyond 2, fell back
to `best_index = 0`, producing the backwards slice [2:0] (empty) and the
full-string tail [0:]. -/
theorem claim_C6_code_bug_eval :
    split_in_two exHyphenName 3
      = [['-', '-'], [], exHyphenName]
    ∧ (split_in_two exHyphenName 3).length = 3
    ∧ (split_in_two exHyphenName 3).foldl (· ++ ·) [] ≠ exHyphenName := by
  refine ⟨by decide, by decide, by decide⟩

/-- Claim C3 counterexample: on a box in the wrapping state (the wrapped
flag was already set by `set_wrapped` when the wrap began),
`animate_wrapping(1.0)` does transition to the fully-wrapped terminal state,
but performs zero `hide_ports_for_wrap` calls — it does not hide the
port/portgroup widgets "exactly once", because hiding happened earlier, in
`set_wrapped`, at the start of the wrap. -/
theorem claim_C3_counterexample :
    (animate_wrapping ⟨true, true, false, 0⟩ 1).2 = [BoxAction.update_pos]
    ∧ (animate_wrapping ⟨true, true, false, 0⟩ 1).1.wrapping = false
    ∧ (animate_wrapping ⟨true, true, false, 0⟩ 1).1.unwrapping = false
    ∧ (animate_wrapping ⟨true, true, false, 0⟩ 1).1.wrapped = true := by
  refine ⟨?_, ?_, ?_, ?_⟩ <;> simp [animate_wrapping]

/-- Claim C3 (amended): `animate_wrapping(1.0)` on a box in the unwrapping
state transitions it to the fully-unwrapped terminal state and restores
port/portgroup visibility by exactly one `hide_ports_for_wrap(False)` call;
`animate_wrapping(1.0)` on a box in the wrapping state transitions it to
the fully-wrapped terminal state with no visibility call at all — the
widgets were hidden once, earlier, by `set_wrapped(True)` when wrapping
began, not on completing the animation. -/
theorem claim_C3_amended :
    (∀ s : WrapState, s.unwrapping = true → s.wrapping = false →
      s.wrapped = false →
      animate_wrapping s 1
        = (⟨false, false, false, 1⟩,
           [BoxAction.hide_ports false, BoxAction.update_pos]))
    ∧ (∀ s : WrapState, s.wrapping = true → s.unwrapping = false →
      s.wrapped = true →
      animate_wrapping s 1 = (⟨true, false, false, 1⟩, [BoxAction.update_pos]))
    ∧ (∀ s : WrapState, s.wrapped = false →
      (set_wrapped s true true).2.count (BoxAction.hide_ports true) = 1) := by
  refine ⟨?_, ?_, ?_⟩
  · rintro ⟨w, wg, uw, r⟩ h1 h2 h3
    simp only at h1 h2 h3
    subst h1; subst h2; subst h3
    simp [animate_wrapping]
  · rintro ⟨w, wg, uw, r⟩ h1 h2 h3
    simp only at h1 h2 h3
    subst h1; subst h2; subst h3
    simp [animate_wrapping, Real.one_rpow]
  · rintro ⟨w, wg, uw, r⟩ h1
    simp only at h1
    subst h1
    simp [set_wrapped]

/-- Witness for claim C3 at concrete states: an unwrapping box and a
wrapping box, both driven with ratio 1, and a fresh wrap of an unwrapped
box hiding the ports once. -/
theorem claim_C3_witness :
    animate_wrapping ⟨false, false, true, 0⟩ 1
      = (⟨false, false, false, 1⟩,
         [BoxAction.hide_ports false, BoxAction.update_pos])
    ∧ animate_wrapping ⟨true, true, false, 0⟩ 1
      = (⟨true, false, false, 1⟩, [BoxAction.update_pos])
    ∧ (set_wrapped ⟨false, false, false, 0⟩ true true).2.count
        (BoxAction.hide_ports true) = 1 :=
  ⟨claim_C3_amended.1 ⟨false, false, true, 0⟩ rfl rfl rfl,
   claim_C3_amended.2.1 ⟨true, true, false, 0⟩ rfl rfl rfl,
   claim_C3_amended.2.2 ⟨false, false, false, 0⟩ rfl⟩

/-- Claim C1 counterexample: `updateLinePos` does divide by (length - 1)
for degenerate groups.  With a portgroup parent of length 1 the division
`(last_old_y - first_old_y) / (portgrp_len - 1)` is a division by zero
(a `ZeroDivisionError`, no finite coordinates); and with a port parent and
a destination group of length 0 the destination offset divides by
(0 - 1) = -1, so a division by (length - 1) is executed even though the
claim says the degenerate cases are short-circuited. -/
theorem claim_C1_counterexample :
    updateLinePosLM 16 ⟨.input, .portgrp, 0, 1, 0, 1, 0, 0, 20⟩ 0 0
      = (LineRes.err, [0])
    ∧ (updateLinePosLM 16 ⟨.input, .port, 0, 1, 0, 0, 0, 0, 20⟩ 0 0).2
        = [-1] := by
  refine ⟨by decide, by decide⟩

/-- Claim C1 (amended): for a drag line (straight or Bezier) whose parent
is a plain port with group length 0 or 1 and whose destination group has
length 1, `updateLinePos` performs no division by a (group length - 1) at
all: the source short-circuits to the centered offset port_height/2, the
destination short-circuits to offset 0, and a finite line/path is produced.
(The guard does not extend to a portgroup parent of length 1, which divides
by zero, nor to a length-0 destination, which divides by -1.) -/
theorem claim_C1_amended :
    (∀ (h : ℚ) (s : LineMovState) (sx sy : ℚ),
        s.parent_type = ParentT.port →
        (s.m_portgrp_len_from = 0 ∨ s.m_portgrp_len_from = 1) →
        s.m_portgrp_len_dest = 1 →
        s.m_port_mode ≠ PMode.null →
        updateLinePosLM h s sx sy
          = (LineRes.line (if s.m_port_mode = PMode.input then 0 else s.p_width + 12)
              (h / 2) (sx - s.p_lineX) (sy - s.p_lineY), []))
    ∧ (∀ (h : ℚ) (s : BezierMovState) (sx sy : ℚ),
        s.parent_type = ParentT.port →
        (s.m_portgrp_lenght = 0 ∨ s.m_portgrp_lenght = 1) →
        s.m_portgrp_lenght_to = 1 →
        s.m_port_mode ≠ PMode.null →
        (updateLinePosBZ h s sx sy).2 = []
          ∧ ∃ p : BezPath, (updateLinePosBZ h s sx sy).1 = BezRes.path p
              ∧ p.start_y = h / 2 ∧ p.end_y = sy - s.p_itemY) := by
  constructor
  · rintro h ⟨mode, par, pf, lf, pd, ld, lx, ly, pw⟩ sx sy hpar hlen hdest hmode
    dsimp only at hpar hdest hmode hlen ⊢
    subst hpar
    subst hdest
    cases mode with
    | null => exact absurd rfl hmode
    | input =>
      rcases hlen with h0 | h0 <;>
        simp [updateLinePosLM, lmSourceY, lmDestOffset, h0]
    | output =>
      rcases hlen with h0 | h0 <;>
        simp [updateLinePosLM, lmSourceY, lmDestOffset, h0]
  · rintro h ⟨mode, par, pf, lf, pd, ld, ix, iy, pw⟩ sx sy hpar hlen hdest hmode
    dsimp only at hpar hdest hmode hlen ⊢
    subst hpar
    subst hdest
    cases mode with
    | null => exact absurd rfl hmode
    | input =>
      rcases hlen with h0 | h0 <;>
        simp [updateLinePosBZ, bzSourceY, bzDestY, h0]
    | output =>
      rcases hlen with h0 | h0 <;>
        simp [updateLinePosBZ, bzSourceY, bzDestY, h0]

/-- Witness for claim C1 at a concrete output-mode drag line from a solo
port (group length 1) toward a solo destination (length 1). -/
theorem claim_C1_witness :
    updateLinePosLM 16 ⟨.output, .port, 0, 1, 0, 1, 1, 2, 20⟩ 100 50
      = (LineRes.line (if PMode.output = PMode.input then 0 else (20 : ℚ) + 12)
          (16 / 2) (100 - 1) (50 - 2), [])
    ∧ ((updateLinePosBZ 16 ⟨.output, .port, 0, 1, 0, 1, 1, 2, 20⟩ 100 50).2 = []
        ∧ ∃ p : BezPath,
            (updateLinePosBZ 16 ⟨.output, .port, 0, 1, 0, 1, 1, 2, 20⟩ 100 50).1
              = BezRes.path p
            ∧ p.start_y = 16 / 2 ∧ p.end_y = 50 - 2) :=
  ⟨claim_C1_amended.1 16 ⟨.output, .port, 0, 1, 0, 1, 1, 2, 20⟩ 100 50
      rfl (Or.inr rfl) rfl (by decide),
   claim_C1_amended.2 16 ⟨.output, .port, 0, 1, 0, 1, 1, 2, 20⟩ 100 50
      rfl (Or.inr rfl) rfl (by decide)⟩

/-- Auxiliary: the destination offset of the straight drag line never
raises: either the length-1 guard hits, or the divisor (length - 1) is
nonzero. -/
theorem lmDestOffset_snd_isSome (h : ℚ) (s : LineMovState) :
    ((lmDestOffset h s).2).isSome = true := by
  unfold lmDestOffset
  by_cases hld : s.m_portgrp_len_dest = 1
  · simp [hld]
  · have hd : (s.m_portgrp_len_dest - 1 : ℤ) ≠ 0 := by omega
    simp [hld, hd]

/-- Auxiliary: the destination offset of the Bezier drag line never
raises. -/
theorem bzDestY_snd_isSome (h : ℚ) (s : BezierMovState) (old_y : ℚ) :
    ((bzDestY h s old_y).2).isSome = true := by
  unfold bzDestY
  by_cases hld : s.m_portgrp_lenght_to = 1
  · cases s.parent_type <;> simp [hld]
  · have hd : (s.m_portgrp_lenght_to - 1 : ℤ) ≠ 0 := by omega
    cases s.parent_type
    · simp [hld, hd]
    · by_cases hsame : s.m_port_posinportgrp_to = s.m_port_posinportgrp
          ∧ s.m_portgrp_lenght = s.m_portgrp_lenght_to
      · simp [hld, hd, hsame]
      · simp [hld, hd, hsame]

/-- Auxiliary: when the port mode is valid and the source offset
computation yields `y0`, the straight drag line's endpoint carries `y0` as
its source Y. -/
theorem updateLinePosLM_srcY (h : ℚ) (s : LineMovState) (sx sy : ℚ)
    (hmode : s.m_port_mode ≠ PMode.null)
    (ds : List ℤ) (y0 : ℚ) (hsrc : lmSourceY h s = (ds, some y0)) :
    ((updateLinePosLM h s sx sy).1).srcY = some y0 := by
  rcases hdo : lmDestOffset h s with ⟨ds2, oy⟩
  cases oy with
  | none =>
    have hns := lmDestOffset_snd_isSome h s
    rw [hdo] at hns
    simp at hns
  | some off =>
    unfold updateLinePosLM
    cases hm : s.m_port_mode with
    | null => exact absurd hm hmode
    | input => simp [hsrc, hdo, LineRes.srcY]
    | output => simp [hsrc, hdo, LineRes.srcY]

/-- Auxiliary: when the source offset computation of the Bezier drag line
yields `y0` and the port mode is valid, the produced path starts at
height `y0`. -/
theorem updateLinePosBZ_srcY (h : ℚ) (s : BezierMovState) (sx sy : ℚ)
    (hmode : s.m_port_mode ≠ PMode.null)
    (ds : List ℤ) (y0 : ℚ) (hsrc : bzSourceY h s = (ds, some y0)) :
    ((updateLinePosBZ h s sx sy).1).srcY = some y0 := by
  rcases hdo : bzDestY h s y0 with ⟨ds2, oy⟩
  cases oy with
  | none =>
    have hns := bzDestY_snd_isSome h s y0
    rw [hdo] at hns
    simp at hns
  | some new_y =>
    unfold updateLinePosBZ
    cases hm : s.m_port_mode with
    | null => exact absurd hm hmode
    | input => simp [hsrc, hdo, BezRes.srcY]
    | output => simp [hsrc, hdo, BezRes.srcY]

/-- Claim C2: for a drag line attached to a plain port (port parent) inside
a portgroup of length 2, phi is 0.62, and the source endpoint Y offset is
`port_height * 0.62` at position 0 and
`port_height * (2 - 0.62) - port_height * 1` at position 1, in both the
straight and the Bezier drag line. -/
theorem claim_C2 :
    (∀ (h : ℚ) (s : LineMovState) (sx sy : ℚ),
      s.parent_type = ParentT.port →
      s.m_portgrp_len_from = 2 →
      s.m_port_mode ≠ PMode.null →
      ((s.m_port_pos_from = 0 →
          ((updateLinePosLM h s sx sy).1).srcY = some (h * (31/50)))
       ∧ (s.m_port_pos_from = 1 →
          ((updateLinePosLM h s sx sy).1).srcY
            = some (h * (2 - 31/50) - h * 1))))
    ∧ (∀ (h : ℚ) (s : BezierMovState) (sx sy : ℚ),
      s.parent_type = ParentT.port →
      s.m_portgrp_lenght = 2 →
      s.m_port_mode ≠ PMode.null →
      ((s.m_port_posinportgrp = 0 →
          ((updateLinePosBZ h s sx sy).1).srcY = some (h * (31/50)))
       ∧ (s.m_port_posinportgrp = 1 →
          ((updateLinePosBZ h s sx sy).1).srcY
            = some (h * (2 - 31/50) - h * 1)))) := by
  constructor
  · intro h s sx sy hpar hlen hmode
    refine ⟨fun hp => ?_, fun hp => ?_⟩
    · refine updateLinePosLM_srcY h s sx sy hmode [1] _ ?_
      unfold lmSourceY
      rw [hpar, hlen, hp]
      norm_num
    · refine updateLinePosLM_srcY h s sx sy hmode [1] _ ?_
      unfold lmSourceY
      rw [hpar, hlen, hp]
      norm_num
  · intro h s sx sy hpar hlen hmode
    refine ⟨fun hp => ?_, fun hp => ?_⟩
    · refine updateLinePosBZ_srcY h s sx sy hmode [1] _ ?_
      unfold bzSourceY
      rw [hpar, hlen, hp]
      norm_num
    · refine updateLinePosBZ_srcY h s sx sy hmode [1] _ ?_
      unfold bzSourceY
      rw [hpar, hlen, hp]
      norm_num

/-- Witness for claim C2 at port_height 16: offsets 9.92 and 6.08 for the
two members of a length-2 portgroup. -/
theorem claim_C2_witness :
    ((updateLinePosLM 16 ⟨.input, .port, 0, 2, 0, 1, 0, 0, 20⟩ 100 50).1).srcY
      = some (16 * (31/50))
    ∧ ((updateLinePosLM 16 ⟨.input, .port, 1, 2, 0, 1, 0, 0, 20⟩ 100 50).1).srcY
      = some (16 * (2 - 31/50) - 16 * 1)
    ∧ ((updateLinePosBZ 16 ⟨.input, .port, 0, 2, 0, 1, 0, 0, 20⟩ 100 50).1).srcY
      = some (16 * (31/50))
    ∧ ((updateLinePosBZ 16 ⟨.input, .port, 1, 2, 0, 1, 0, 0, 20⟩ 100 50).1).srcY
      = some (16 * (2 - 31/50) - 16 * 1) :=
  ⟨(claim_C2.1 16 ⟨.input, .port, 0, 2, 0, 1, 0, 0, 20⟩ 100 50
      rfl rfl (by decide)).1 rfl,
   (claim_C2.1 16 ⟨.input, .port, 1, 2, 0, 1, 0, 0, 20⟩ 100 50
      rfl rfl (by decide)).2 rfl,
   (claim_C2.2 16 ⟨.input, .port, 0, 2, 0, 1, 0, 0, 20⟩ 100 50
      rfl rfl (by decide)).1 rfl,
   (claim_C2.2 16 ⟨.input, .port, 1, 2, 0, 1, 0, 0, 20⟩ 100 50
      rfl rfl (by decide)).2 rfl⟩

/-- Claim C8 counterexample: for an input-mode drag whose cursor lies on
the positive-X side (final_x = 10 > 0 = old_x, with no vertical excess so
no outward correction applies), the claim would place both control-point X
values at the midpoint (0 + 10) / 2 = 5; the code instead computes
c1x = old_x - |span| / 2 = -5 and c2x = final_x + |span| / 2 = 15. -/
theorem claim_C8_counterexample :
    (updateLinePosBZ 16 ⟨.input, .port, 0, 1, 0, 1, 0, 0, 20⟩ 10 8).1
      = BezRes.path ⟨0, 8, -5, 8, 15, 8, 10, 8⟩
    ∧ ((0 : ℚ) + 10) / 2 = 5
    ∧ ((-5 : ℚ) ≠ 5 ∧ (15 : ℚ) ≠ 5) := by
  refine ⟨?_, by norm_num, by norm_num, by norm_num⟩
  norm_num [updateLinePosBZ, bzSourceY, bzDestY]

/-- Claim C8 (amended): each control-point X of a Bezier drag path is
placed half the horizontal span beyond its endpoint, outward in the fixed
direction of the port's side (away from an output, toward negative X for an
input), and both are pushed further outward by |dy| - |dx| exactly when
that difference is positive (no correction otherwise).  The control points
therefore coincide with the midpoint of the endpoint X values exactly in
the natural-direction case, e.g. an output drag with final_x at or beyond
old_x and no vertical excess. -/
theorem claim_C8_amended (h : ℚ) (s : BezierMovState) (sx sy : ℚ)
    (p : BezPath)
    (hres : (updateLinePosBZ h s sx sy).1 = BezRes.path p) :
    (s.m_port_mode = PMode.output →
       p.c1x = p.start_x + bezSpan p / 2 + bezPush p
       ∧ p.c2x = p.end_x - bezSpan p / 2 - bezPush p)
    ∧ (s.m_port_mode = PMode.input →
       p.c1x = p.start_x - bezSpan p / 2 - bezPush p
       ∧ p.c2x = p.end_x + bezSpan p / 2 + bezPush p)
    ∧ (s.m_port_mode = PMode.output → p.start_x ≤ p.end_x →
         |p.end_y - p.start_y| ≤ |p.end_x - p.start_x| →
       p.c1x = (p.start_x + p.end_x) / 2
       ∧ p.c2x = (p.start_x + p.end_x) / 2) := by
  rcases hsy : bzSourceY h s with ⟨ds, oy⟩
  cases oy with
  | none =>
    simp only [updateLinePosBZ, hsy] at hres
    exact BezRes.noConfusion hres
  | some old_y =>
    rcases hdy : bzDestY h s old_y with ⟨ds2, ny⟩
    cases ny with
    | none =>
      simp only [updateLinePosBZ, hsy, hdy] at hres
      exact BezRes.noConfusion hres
    | some new_y =>
      cases hm : s.m_port_mode with
      | null =>
        simp only [updateLinePosBZ, hsy, hdy, hm] at hres
        exact BezRes.noConfusion hres
      | output =>
        simp only [updateLinePosBZ, hsy, hdy, hm, BezRes.path.injEq] at hres
        subst hres
        refine ⟨fun _ => ?_,
                fun hin => absurd hin (by decide),
                fun _ hxs hyx => ?_⟩
        · unfold bezSpan bezPush
          dsimp only
          split_ifs with hd
          · constructor <;> rw [abs_of_pos hd]
          · constructor <;> ring
        · dsimp only at hxs hyx ⊢
          have hspan : |sx - s.p_itemX - (s.p_width + 12)|
              = sx - s.p_itemX - (s.p_width + 12) := abs_of_nonneg (by linarith)
          have hnpos : ¬ (|sy - s.p_itemY + new_y - old_y|
              - |sx - s.p_itemX - (s.p_width + 12)| > 0) := by linarith
          rw [if_neg hnpos, if_neg hnpos]
          constructor <;> rw [hspan] <;> ring
      | input =>
        simp only [updateLinePosBZ, hsy, hdy, hm, BezRes.path.injEq] at hres
        subst hres
        refine ⟨fun hout => absurd hout (by decide),
                fun _ => ?_,
                fun hout => absurd hout (by decide)⟩
        unfold bezSpan bezPush
        dsimp only
        split_ifs with hd
        · constructor <;> rw [abs_of_pos hd]
        · constructor <;> ring

/-- Witness for claim C8: an output-mode drag with the cursor beyond the
port on its natural side (span 68, no vertical excess) places both control
points at the midpoint (32 + 100) / 2 = 66 of the endpoint X values. -/
theorem claim_C8_witness :
    (⟨32, 8, 66, 8, 66, 8, 100, 8⟩ : BezPath).c1x = ((32 : ℚ) + 100) / 2
    ∧ (⟨32, 8, 66, 8, 66, 8, 100, 8⟩ : BezPath).c2x = ((32 : ℚ) + 100) / 2 := by
  have hres : (updateLinePosBZ 16 ⟨.output, .port, 0, 1, 0, 1, 0, 0, 20⟩ 100 8).1
      = BezRes.path ⟨32, 8, 66, 8, 66, 8, 100, 8⟩ := by
    norm_num [updateLinePosBZ, bzSourceY, bzDestY]
  have h3 := (claim_C8_amended 16 ⟨.output, .port, 0, 1, 0, 1, 0, 0, 20⟩ 100 8
      ⟨32, 8, 66, 8, 66, 8, 100, 8⟩ hres).2.2 rfl (by norm_num) (by norm_num)
  simpa using h3

/-- Auxiliary: when alignment is enabled, every bucket step ends by setting
both Y cursors to their common maximum. -/
theorem processBucket_align_cursors (th : Theme) (ports : List LPort)
    (s : YState) (b : PType × Bool) :
    (processBucket th true ports s b).last_in_pos
      = (processBucket th true ports s b).last_out_pos := by
  simp only [processBucket]
  split_ifs <;> rfl

/-- Claim C4: when the alignment decision enables type-alignment, then
after processing any (type, alternate) bucket that has ports on both the
input and the output side, the input Y cursor and the output Y cursor are
exactly equal.  (In fact the sync step equalises the cursors after every
bucket.) -/
theorem claim_C4 (th : Theme) (ports : List LPort) (k : ℕ)
    (halign : alignPortTypes ports = true) (_hk : k < 8)
    (_hin : 0 < (bucketPorts ports (allBuckets.getD k (.audio_jack, false)).1
        (allBuckets.getD k (.audio_jack, false)).2).countP
        (fun p => p.port_mode = PMode.input))
    (_hout : 0 < (bucketPorts ports (allBuckets.getD k (.audio_jack, false)).1
        (allBuckets.getD k (.audio_jack, false)).2).countP
        (fun p => p.port_mode = PMode.output)) :
    (yStateAfter th ports (k + 1)).last_in_pos
      = (yStateAfter th ports (k + 1)).last_out_pos := by
  have hstep : yStateAfter th ports (k + 1)
      = processBucket th (alignPortTypes ports) ports
          (yStateAfter th ports k) (allBuckets.getD k (.audio_jack, false)) := rfl
  rw [hstep, halign]
  exact processBucket_align_cursors th ports (yStateAfter th ports k)
    (allBuckets.getD k (.audio_jack, false))

/-- Witness for claim C4: one audio input and one audio output; alignment
is enabled, the first bucket has ports on both sides, and both cursors
agree after it. -/
theorem claim_C4_witness :
    (yStateAfter exTheme [exPortIn, exPortOut] 1).last_in_pos
      = (yStateAfter exTheme [exPortIn, exPortOut] 1).last_out_pos :=
  claim_C4 exTheme [exPortIn, exPortOut] 0 (by decide) (by decide)
    (by decide) (by decide)

/-- Claim C5: after `updatePositions`, the final box width is at least the
maximum of the chosen title-header width requirement and the ports-area
width requirement, and the ports-area width requirement is at least
max_in_width + max_out_width plus the fixed margin 30. -/
theorem claim_C5 (inp : UPInput) :
    (updatePositionsBox inp).final_width
      ≥ max ((updatePositionsBox inp).ports_width)
          (((updatePositionsBox inp).templates.getD
              (updatePositionsBox inp).lines_count (0, 0)).2)
    ∧ (updatePositionsBox inp).ports_width
        ≥ (updatePositionsBox inp).max_in_width
          + (updatePositionsBox inp).max_out_width + 30 := by
  constructor
  · exact le_of_eq rfl
  · show portsWidth inp ≥ _
    unfold portsWidth
    split_ifs <;> dsimp only [updatePositionsBox] <;> linarith

/-- Auxiliary: the line-count choice of `updatePositions` is always between
1 and 4. -/
theorem linesChoice_bounds (tpls : List (ℚ × ℚ)) (W maxpos : ℚ) :
    1 ≤ (linesChoice tpls W maxpos).1 ∧ (linesChoice tpls W maxpos).1 ≤ 4 := by
  simp only [linesChoice]
  split_ifs <;> simp

/-- Claim C7: the title-candidate loop evaluates line counts upward from 1
and stops at the first candidate whose header width fits strictly under the
ports-width estimate (or at 4): the stopping candidate is between 1 and 4,
every earlier candidate did not fit, the stopping candidate fits whenever
it is below 4, and the chosen title line count is between 1 and 4. -/
theorem claim_C7 (inp : UPInput) :
    (1 ≤ (titleTemplates inp (portsWidth inp)).2
      ∧ (titleTemplates inp (portsWidth inp)).2 ≤ 4)
    ∧ (∀ j : ℕ, 1 ≤ j → j < (titleTemplates inp (portsWidth inp)).2 →
        ¬ headerWidthFor inp j < portsWidth inp)
    ∧ ((titleTemplates inp (portsWidth inp)).2 < 4 →
        headerWidthFor inp (titleTemplates inp (portsWidth inp)).2
          < portsWidth inp)
    ∧ (1 ≤ (updatePositionsBox inp).lines_count
      ∧ (updatePositionsBox inp).lines_count ≤ 4) := by
  have hchoice : 1 ≤ (updatePositionsBox inp).lines_count
      ∧ (updatePositionsBox inp).lines_count ≤ 4 := by
    unfold updatePositionsBox
    dsimp only
    exact linesChoice_bounds _ _ _
  have hloop : (1 ≤ (titleTemplates inp (portsWidth inp)).2
      ∧ (titleTemplates inp (portsWidth inp)).2 ≤ 4)
      ∧ (∀ j : ℕ, 1 ≤ j → j < (titleTemplates inp (portsWidth inp)).2 →
          ¬ headerWidthFor inp j < portsWidth inp)
      ∧ ((titleTemplates inp (portsWidth inp)).2 < 4 →
          headerWidthFor inp (titleTemplates inp (portsWidth inp)).2
            < portsWidth inp) := by
    simp only [titleTemplates, titleLoopGo]
    split_ifs with h1 h2 h3 h4
    · refine ⟨by omega, fun j hj1 hj2 => by omega, fun _ => h1⟩
    · refine ⟨by omega, fun j hj1 hj2 => ?_, fun _ => h2⟩
      have : j = 1 := by omega
      rw [this]
      exact h1
    · refine ⟨by omega, fun j hj1 hj2 => ?_, fun _ => h3⟩
      interval_cases j
      · exact h1
      · exact h2
    · refine ⟨by omega, fun j hj1 hj2 => ?_, fun hlt => by omega⟩
      interval_cases j
      · exact h1
      · exact h2
      · exact h3
    · refine ⟨by omega, fun j hj1 hj2 => ?_, fun hlt => by omega⟩
      interval_cases j
      · exact h1
      · exact h2
      · exact h3
  exact ⟨hloop.1, hloop.2.1, hloop.2.2, hchoice⟩
